import Mathlib

/-!
Verification of the text-transformation pipeline in `src/streamlit_app.py`.

The core functions (`clean_text`, `split_sentences`, `filter_sentence`,
`classify_sentence`, `transform`) are shallowly embedded below over
`List Char` strings.  The regular expressions in the source are written in
raw strings with doubled backslashes (for example `r"^[\\W_]+$"`,
`r"(#\\w+)"`, `r"(?<=[.!?])\\s+|(?=#[^\\s]+)"`), so at the `re` level each
`\\` denotes one literal backslash character; the embedding reproduces these
literal semantics exactly, including Python 3.7+ `re.split` handling of
zero-width matches.  Case folding of `str.lower` is modelled per character
with `Char.toLower`.
-/

deriving instance DecidableEq for Except

namespace TextApp

/-- Characters treated as whitespace by Python `str.strip` / `str.split`
(the Unicode whitespace set used by CPython for `str`). -/
def pyIsSpace (c : Char) : Bool :=
  let n := c.toNat
  (9 ≤ n && n ≤ 13) || (28 ≤ n && n ≤ 31) || n == 32 || n == 133 || n == 160 ||
  n == 0x1680 || (0x2000 ≤ n && n ≤ 0x200A) || n == 0x2028 || n == 0x2029 ||
  n == 0x202F || n == 0x205F || n == 0x3000

/-- Python `str.strip()`: remove leading and trailing whitespace. -/
def pyStrip (l : List Char) : List Char :=
  ((l.dropWhile pyIsSpace).reverse.dropWhile pyIsSpace).reverse

/-- Worker for `pySplitWs`; `acc` is the current word, reversed. -/
def pySplitWsGo : List Char → List Char → List (List Char)
  | acc, [] => if acc.isEmpty then [] else [acc.reverse]
  | acc, c :: rest =>
    if pyIsSpace c then
      if acc.isEmpty then pySplitWsGo [] rest
      else acc.reverse :: pySplitWsGo [] rest
    else pySplitWsGo (c :: acc) rest

/-- Python `str.split()` with no arguments: split on whitespace runs,
discarding empty words. -/
def pySplitWs (l : List Char) : List (List Char) := pySplitWsGo [] l

/-- Python `str.lower`, modelled per character. -/
def lowerL (l : List Char) : List Char := l.map Char.toLower

/-- Boolean list-prefix test. -/
def startsWith : List Char → List Char → Bool
  | [], _ => true
  | _ :: _, [] => false
  | p :: ps, c :: cs => p == c && startsWith ps cs

/-- Python substring containment `needle in hay`: `needle` occurs
contiguously in `hay` (the empty string occurs in everything). -/
def containsSub (hay needle : List Char) : Bool :=
  match hay with
  | [] => needle.isEmpty
  | _ :: t => startsWith needle hay || containsSub t needle

/-! ### `URL_RE = re.compile(r"https?://\\S+")`

At the `re` level the pattern is `https?://` followed by one literal
backslash and then one or more literal `S` characters. -/

/-- The tail of a URL match after the initial `h` when the optional `s` is
present: `ttps://` then a literal backslash then the first `S`. -/
def urlTailS : List Char := ['t', 't', 'p', 's', ':', '/', '/', '\\', 'S']

/-- The tail of a URL match after the initial `h` without the optional `s`. -/
def urlTailN : List Char := ['t', 't', 'p', ':', '/', '/', '\\', 'S']

/-- Scanner for `URL_RE.sub("", text)`.  Mode `0` copies characters; mode
`m ≥ 2` silently drops `m - 1` more matched characters; mode `1` drops the
greedy run of `S` characters ending a match. -/
def urlGo : Nat → List Char → List Char
  | _, [] => []
  | m, c :: rest =>
    if 2 ≤ m then urlGo (m - 1) rest
    else if m == 1 && c == 'S' then urlGo 1 rest
    else if c == 'h' && startsWith urlTailS rest then urlGo 9 rest
    else if c == 'h' && startsWith urlTailN rest then urlGo 8 rest
    else c :: urlGo 0 rest

/-- `URL_RE.sub("", text)`. -/
def urlSub (l : List Char) : List Char := urlGo 0 l

/-- Python `text.replace("\\n", " ")`: the two-character sequence backslash
`n` (not a newline) is replaced by a space, scanning left to right. -/
def replaceBackslashN : List Char → List Char
  | '\\' :: 'n' :: rest => ' ' :: replaceBackslashN rest
  | c :: rest => c :: replaceBackslashN rest
  | [] => []

/-- `clean_text`: strip URLs, replace literal `\n` sequences, strip. -/
def cleanTextL (l : List Char) : List Char :=
  pyStrip (replaceBackslashN (urlSub l))

/-! ### `HASHTAG_RE = re.compile(r"(#\\w+)")` and its substitution

The pattern matches `#`, one literal backslash, then one or more literal
`w` characters.  The replacement template `r". \\1 ."` processes `\\` to a
single literal backslash, so every match is replaced by the six characters
`. \1 .` (no group reference). -/

/-- The literal replacement text inserted by `HASHTAG_RE.sub(r". \\1 .", …)`. -/
def hashtagRepl : List Char := ['.', ' ', '\\', '1', ' ', '.']

/-- Scanner for the hashtag substitution.  Mode `0` copies; mode `1` drops
the backslash of a match; mode `2` drops the greedy run of `w` characters. -/
def hashtagSubGo : Nat → List Char → List Char
  | _, [] => []
  | m, c :: rest =>
    if m == 1 then hashtagSubGo 2 rest
    else if m == 2 && c == 'w' then hashtagSubGo 2 rest
    else if c == '#' && startsWith ['\\', 'w'] rest then
      hashtagRepl ++ hashtagSubGo 1 rest
    else c :: hashtagSubGo 0 rest

/-- `HASHTAG_RE.sub(r". \\1 .", text)`. -/
def hashtagSub (l : List Char) : List Char := hashtagSubGo 0 l

/-! ### `re.split(r"(?<=[.!?])\\s+|(?=#[^\\s]+)", text)`

First alternative: a position after `.`, `!` or `?`, matching one literal
backslash followed by a greedy run of literal `s` characters.  Second
alternative: a zero-width lookahead for `#` followed by at least one
character that is neither a backslash nor `s`.  The scanner below follows
Python 3.7+ `re.split`: delimiter matches are removed, a zero-width match
splits and scanning resumes one character later. -/

def isTermC (c : Char) : Bool := c == '.' || c == '!' || c == '?'

def isTermO : Option Char → Bool
  | some c => isTermC c
  | none => false

/-- True if the list starts with a character other than backslash and `s`
(the lookahead body `#[^\\s]+` requires one such character after `#`). -/
def headNotSlashS : List Char → Bool
  | d :: _ => d != '\\' && d != 's'
  | [] => false

/-- Splitter state machine.  `skip` is true while consuming the `s`-run of a
first-alternative delimiter; `prev` is the character before the current
position (for the lookbehind); `cur` is the current piece, reversed. -/
def splitGo : Bool → Option Char → List Char → List Char → List (List Char)
  | _, _, cur, [] => [cur.reverse]
  | skip, prev, cur, c :: rest =>
    if skip && c == 's' then splitGo true (some 's') cur rest
    else
      let pv : Option Char := if skip then some 's' else prev
      if isTermO pv && c == '\\' && startsWith ['s'] rest then
        cur.reverse :: splitGo true (some '\\') [] rest
      else if c == '#' && headNotSlashS rest then
        cur.reverse :: splitGo false (some '#') [c] rest
      else splitGo false (some c) (c :: cur) rest

/-- `split_sentences(text, isolate_hash)` on a string argument. -/
def splitSentencesL (l : List Char) (iso : Bool) : List (List Char) :=
  if l.isEmpty then []
  else
    let t := if iso then hashtagSub l else l
    ((splitGo false none [] t).map pyStrip).filter (fun p => !p.isEmpty)

/-! ### Dynamically-typed values

`split_sentences` and the dictionary plumbing receive arbitrary Python
values; `PyVal` models the values that can reach them and `PyErr` the
exceptions the code can raise. -/

inductive PyErr where
  | typeError
  | attrError
  | indexError
deriving DecidableEq

inductive PyVal where
  | pynone
  | pybool (b : Bool)
  | pyint (n : Int)
  | str (s : List Char)
  | list (xs : List PyVal)
  | dict (kvs : List (List Char × PyVal))

/-- Python truthiness of a `PyVal` (the `if not text:` test). -/
def truthy : PyVal → Bool
  | .pynone => false
  | .pybool b => b
  | .pyint n => !(n == 0)
  | .str s => !s.isEmpty
  | .list xs => !xs.isEmpty
  | .dict kvs => !kvs.isEmpty

/-- `split_sentences(text, isolate_hash)` on an arbitrary value: a falsy
argument returns `[]`; a truthy non-string reaches `HASHTAG_RE.sub` or
`re.split` and raises `TypeError`. -/
def splitSentencesPy (v : PyVal) (iso : Bool) : Except PyErr (List (List Char)) :=
  if !truthy v then .ok []
  else
    match v with
    | .str s => .ok (splitSentencesL s iso)
    | _ => .error .typeError

/-! ### `PUNCT_ONLY_RE = re.compile(r"^[\\W_]+$")` and `filter_sentence`

At the `re` level the character class `[\\W_]` contains exactly the three
characters backslash, `W` and underscore. -/

def punctOnlyChar (c : Char) : Bool := c == '\\' || c == 'W' || c == '_'

/-- `PUNCT_ONLY_RE.fullmatch(s)` succeeds. -/
def punctOnlyFullmatch (l : List Char) : Bool :=
  !l.isEmpty && l.all punctOnlyChar

/-- `filter_sentence(s, min_chars, min_words)`. -/
def filterSentence (s : List Char) (minChars minWords : Nat) : Bool :=
  if s.length < minChars then false
  else if (pySplitWs s).length < minWords then false
  else !punctOnlyFullmatch s

/-! ### `classify_sentence`

A keyword dictionary `dict[str, List[str]]` is modelled as an association
list, which preserves the insertion order that Python dict iteration uses.
After the loop the source returns
`hits[0] if mode == "first" else ";".join(hits) or "Uncategorized"`;
`hits[0]` raises `IndexError` when `hits` is empty. -/

abbrev KwDict := List (List Char × List (List Char))

/-- `any(k.lower() in s_low for k in kws)` for a well-typed keyword list. -/
def kwMatches (sLow : List Char) (kws : List (List Char)) : Bool :=
  kws.any (fun k => containsSub sLow (lowerL k))

/-- `";".join(hits)`. -/
def semicolonJoin (hits : List (List Char)) : List Char :=
  List.intercalate [';'] hits

def uncategorizedS : List Char := "Uncategorized".data

/-- `x or "Uncategorized"` for a string `x`. -/
def orUncategorized (j : List Char) : List Char :=
  if j.isEmpty then uncategorizedS else j

/-- The loop of `classify_sentence`, with the accumulated `hits`. -/
def classifyGo (sLow : List Char) (mode : String) :
    KwDict → List (List Char) → Except PyErr (List Char)
  | [], hits =>
    if mode == "first" then
      match hits with
      | [] => .error .indexError
      | h :: _ => .ok h
    else .ok (orUncategorized (semicolonJoin hits))
  | (cat, kws) :: rest, hits =>
    if kwMatches sLow kws then
      if mode == "first" then .ok cat
      else classifyGo sLow mode rest (hits ++ [cat])
    else classifyGo sLow mode rest hits

/-- `classify_sentence(s, kw_dict, mode)` for a well-typed dictionary. -/
def classifySentence (s : List Char) (kwDict : KwDict) (mode : String) :
    Except PyErr (List Char) :=
  classifyGo (lowerL s) mode kwDict []

/-! ### `classify_sentence` on dynamically-typed dictionary values

`USER_DICT` is only checked to be a dict, so its values can be arbitrary
Python values when they reach `classify_sentence`. -/

/-- `any(k.lower() in s_low for k in kws)` when `kws` is a Python list of
arbitrary values: the generator short-circuits on the first match, and a
non-string element reached by the iteration raises `AttributeError` at
`k.lower()`. -/
def anyKwStr (sLow : List Char) : List PyVal → Except PyErr Bool
  | [] => .ok false
  | .str k :: rest =>
    if containsSub sLow (lowerL k) then .ok true else anyKwStr sLow rest
  | _ :: _ => .error .attrError

/-- `any(k.lower() in s_low for k in kws)` on an arbitrary value `kws`:
iterating a string yields its characters, iterating a dict yields its keys,
and a non-iterable value raises `TypeError`. -/
def anyKwDyn (sLow : List Char) : PyVal → Except PyErr Bool
  | .list xs => anyKwStr sLow xs
  | .str t => .ok (t.any (fun c => containsSub sLow (lowerL [c])))
  | .dict kvs => .ok (kvs.any (fun kv => containsSub sLow (lowerL kv.1)))
  | _ => .error .typeError

/-- The loop of `classify_sentence` over a dictionary with arbitrary
values. -/
def classifyDynGo (sLow : List Char) (mode : String) :
    List (List Char × PyVal) → List (List Char) → Except PyErr (List Char)
  | [], hits =>
    if mode == "first" then
      match hits with
      | [] => .error .indexError
      | h :: _ => .ok h
    else .ok (orUncategorized (semicolonJoin hits))
  | (cat, kws) :: rest, hits =>
    match anyKwDyn sLow kws with
    | .error e => .error e
    | .ok true =>
      if mode == "first" then .ok cat
      else classifyDynGo sLow mode rest (hits ++ [cat])
    | .ok false => classifyDynGo sLow mode rest hits

/-- `classify_sentence(s, kw_dict, mode)` on a dictionary whose values are
arbitrary Python values. -/
def classifySentenceDyn (s : List Char) (kwDict : List (List Char × PyVal))
    (mode : String) : Except PyErr (List Char) :=
  classifyDynGo (lowerL s) mode kwDict []

/-! ### `transform` -/

/-- One input row, after `str(...)` has been applied to the text cell. -/
structure InputRec where
  id : List Char
  text : List Char
deriving DecidableEq

/-- One output row of `transform`. -/
structure Row where
  id : List Char
  sentenceId : Nat
  context : List Char
  statement : List Char
  category : List Char
deriving DecidableEq

/-- The inner sentence loop of `transform`: `idx` is the current value of
`sent_idx`, incremented only for sentences that pass the filter. -/
def expandGo (recId ctx : List Char) (D : KwDict) (mc mw : Nat)
    (mode : String) : List (List Char) → Nat → Except PyErr (List Row)
  | [], _ => .ok []
  | s :: rest, idx =>
    if filterSentence s mc mw then
      match classifySentence s D mode with
      | .error e => .error e
      | .ok cat =>
        match expandGo recId ctx D mc mw mode rest (idx + 1) with
        | .error e => .error e
        | .ok rows => .ok (⟨recId, idx + 1, ctx, s, cat⟩ :: rows)
    else expandGo recId ctx D mc mw mode rest idx

/-- The per-record body of `transform`'s outer loop. -/
def expandRecord (r : InputRec) (D : KwDict) (iso : Bool) (mc mw : Nat)
    (mode : String) : Except PyErr (List Row) :=
  let ctx := cleanTextL r.text
  expandGo r.id ctx D mc mw mode (splitSentencesL ctx iso) 0

/-- `transform(df, id_col, ctx_col, kw_dict, isolate_hash, min_chars,
min_words, match_mode)`: one pass over the rows in original order; an
exception aborts the whole run with no partial output. -/
def transformL (df : List InputRec) (D : KwDict) (iso : Bool) (mc mw : Nat)
    (mode : String) : Except PyErr (List Row) :=
  match df with
  | [] => .ok []
  | r :: rs =>
    match expandRecord r D iso mc mw mode with
    | .error e => .error e
    | .ok a =>
      match transformL rs D iso mc mw mode with
      | .error e => .error e
      | .ok b => .ok (a ++ b)

/-! ### `DEFAULT_DICT` and the `USER_DICT` guard -/

/-- A Python list of strings, as a `PyVal`. -/
def kwlist (ss : List String) : PyVal :=
  .list (ss.map (fun s => .str s.data))

/-- The built-in `DEFAULT_DICT`, as the dynamically-typed value it is in the
source. -/
def defaultDictPy : List (List Char × PyVal) := [
  ("Fashion".data, kwlist
    ["style", "fashion", "wardrobe", "clothes", "outfit", "OOTD", "runway",
     "trend", "vogue", "chic", "couture", "lookbook", "garment", "designer"]),
  ("Food".data, kwlist
    ["delicious", "foodie", "dinner", "lunch", "restaurant", "recipe",
     "taste", "yummy", "cuisine", "dessert", "snack", "brunch",
     "kitchen", "chef", "cook", "coffee", "tea"]),
  ("Travel".data, kwlist
    ["travel", "trip", "vacation", "explore", "journey", "flight",
     "hotel", "backpacking", "adventure", "wanderlust", "tourism",
     "passport", "roadtrip", "getaway", "destinations"]),
  ("Fitness".data, kwlist
    ["workout", "fitness", "exercise", "gym", "training", "cardio",
     "strength", "run", "yoga", "HIIT", "wellness", "fitspo",
     "calisthenics", "pilates", "cycling", "marathon"]),
  ("Technology".data, kwlist
    ["tech", "gadget", "smartphone", "AI", "machine learning", "robot",
     "software", "hardware", "coding", "programming", "startup",
     "innovation", "app", "VR", "blockchain", "5G", "cyber", "cloud"]),
  ("Sports".data, kwlist
    ["soccer", "football", "basketball", "nba", "nfl", "cricket",
     "baseball", "tennis", "golf", "olympics", "athlete", "score",
     "goal", "match", "tournament", "league", "championship", "stadium"]),
  ("Beauty".data, kwlist
    ["beauty", "makeup", "skincare", "cosmetics", "lipstick", "foundation",
     "mascara", "blush", "palette", "fragrance", "haircare", "salon",
     "spa", "glow", "nails", "manicure"]),
  ("Nature".data, kwlist
    ["nature", "forest", "mountain", "beach", "sunset", "sunrise",
     "wildlife", "ocean", "lake", "river", "landscape", "hiking",
     "camping", "outdoors", "flora", "fauna", "eco", "green"]),
  ("Health".data, kwlist
    ["health", "nutrition", "diet", "vitamin", "mental health", "sleep",
     "mindfulness", "meditation", "doctor", "medicine", "healthy",
     "hydration", "immune", "well-being"]),
  ("Entertainment".data, kwlist
    ["movie", "film", "cinema", "music", "concert", "album", "song",
     "tv", "series", "netflix", "premiere", "actor", "actress",
     "festival", "show", "theatre", "hollywood", "bollywood"])]

/-- The `USER_DICT` computation: `json.loads(dict_text)` either raises
(modelled as `none`) or yields a Python value; any exception, including the
`ValueError` raised when the value is not a dict, falls back to
`DEFAULT_DICT`.  No check of the dict's values is performed. -/
def userDictOf : Option PyVal → List (List Char × PyVal)
  | some (.dict kvs) => kvs
  | _ => defaultDictPy

/-! ### Specification-side definitions

The following definitions are written from the claims' words, not from the
source, and are only used to compare the source's behaviour against them. -/

/-- Following the claims' words: a category matches a sentence iff some
keyword, lower-cased, occurs as a substring of the lower-cased sentence. -/
def matchesCat (s : List Char) (cd : List Char × List (List Char)) : Bool :=
  kwMatches (lowerL s) cd.2

/-- Following the claims' words: every matching category, in dictionary
order. -/
def matchingCats (s : List Char) (D : KwDict) : List (List Char) :=
  (D.filter (fun cd => matchesCat s cd)).map Prod.fst

/-- Following the claims' words: the first matching category in dictionary
order, if any. -/
def firstMatchingCat (s : List Char) (D : KwDict) : Option (List Char) :=
  (D.find? (fun cd => matchesCat s cd)).map Prod.fst

/-- Following the claims' words: the total all-matches classification (the
semicolon-joined matching categories, or the fallback label). -/
def classifyAllTotal (s : List Char) (D : KwDict) : List Char :=
  orUncategorized (semicolonJoin (matchingCats s D))

/-- Number a list consecutively starting at `n + 1`. -/
def numberFrom : Nat → List (List Char) → List (Nat × List Char)
  | _, [] => []
  | n, s :: ss => (n + 1, s) :: numberFrom (n + 1) ss

/-- Following claim C8's words: the rows a single record contributes — one
row per surviving sentence, in order, numbered consecutively from 1, each
carrying the record's id and cleaned text. -/
def specExpand (r : InputRec) (D : KwDict) (iso : Bool) (mc mw : Nat) :
    List Row :=
  let ctx := cleanTextL r.text
  (numberFrom 0 ((splitSentencesL ctx iso).filter
      (fun s => filterSentence s mc mw))).map
    (fun p => ⟨r.id, p.1, ctx, p.2, classifyAllTotal p.2 D⟩)

/-- Following claim C8's words: records processed in original order, each
contributing its rows. -/
def specRows : List InputRec → KwDict → Bool → Nat → Nat → List Row
  | [], _, _, _, _ => []
  | r :: rs, D, iso, mc, mw =>
    specExpand r D iso mc mw ++ specRows rs D iso mc mw

/-! ## Helper lemmas -/

/-- In any mode other than `"first"`, the classification loop is total and
returns the accumulated and remaining matching categories, semicolon-joined,
with the `Uncategorized` fallback for an empty join. -/
theorem classifyGo_all_eq (sLow : List Char) (mode : String)
    (hm : (mode == "first") = false) :
    ∀ (D : KwDict) (hits : List (List Char)),
      classifyGo sLow mode D hits =
        .ok (orUncategorized (semicolonJoin
          (hits ++ (D.filter (fun cd => kwMatches sLow cd.2)).map Prod.fst)))
  | [], hits => by simp [classifyGo, hm]
  | (cat, kws) :: rest, hits => by
    by_cases h : kwMatches sLow kws
    · have ih := classifyGo_all_eq sLow mode hm rest (hits ++ [cat])
      simp [classifyGo, h, hm, ih, List.filter_cons, List.append_assoc]
    · have ih := classifyGo_all_eq sLow mode hm rest hits
      simp [classifyGo, h, ih, List.filter_cons]

/-- In mode `"first"` the classification loop returns the first matching
category, or falls through to `hits[0]` (an `IndexError` on the empty
accumulator). -/
theorem classifyGo_first_eq (sLow : List Char) :
    ∀ (D : KwDict) (hits : List (List Char)),
      classifyGo sLow "first" D hits =
        (match D.find? (fun cd => kwMatches sLow cd.2) with
         | some cd => .ok cd.1
         | none =>
           match hits with
           | [] => .error .indexError
           | h :: _ => .ok h)
  | [], hits => by simp [classifyGo]
  | (cat, kws) :: rest, hits => by
    by_cases h : kwMatches sLow kws
    · simp [classifyGo, h, List.find?_cons_of_pos]
    · have ih := classifyGo_first_eq sLow rest hits
      simp [classifyGo, h, List.find?_cons_of_neg, ih]

/-- `classify_sentence` in mode `"all"` never raises and returns the
semicolon-joined matching categories, or the fallback label. -/
theorem classifySentence_all_eq (s : List Char) (D : KwDict) :
    classifySentence s D "all" = .ok (classifyAllTotal s D) := by
  have h := classifyGo_all_eq (lowerL s) "all" rfl D []
  simpa [classifySentence, classifyAllTotal, matchingCats, matchesCat] using h

/-- `classify_sentence` in mode `"first"` returns the first matching
category, and raises `IndexError` when there is none. -/
theorem classifySentence_first_eq (s : List Char) (D : KwDict) :
    classifySentence s D "first" =
      (match firstMatchingCat s D with
       | some c => .ok c
       | none => .error .indexError) := by
  have h := classifyGo_first_eq (lowerL s) D []
  rw [classifySentence] at *
  rw [h]
  simp only [firstMatchingCat, matchesCat]
  cases hf : D.find? (fun cd => kwMatches (lowerL s) cd.2) <;> simp [hf]

/-- If a list contains no `#` and no sentence terminator, the split scanner
finds no match and yields a single piece. -/
theorem splitGo_no_match :
    ∀ (l : List Char) (prev : Option Char) (cur : List Char),
      (∀ c ∈ l, c ≠ '#' ∧ isTermC c = false) → isTermO prev = false →
      splitGo false prev cur l = [cur.reverse ++ l]
  | [], prev, cur, _, _ => by simp [splitGo]
  | c :: rest, prev, cur, h, hp => by
    have hc := h c (List.mem_cons_self c rest)
    have hrest : ∀ x ∈ rest, x ≠ '#' ∧ isTermC x = false :=
      fun x hx => h x (List.mem_cons_of_mem c hx)
    have ih := splitGo_no_match rest (some c) (c :: cur) hrest
      (by simp [isTermO, hc.2])
    simp [splitGo, hp, hc.1, ih, List.append_assoc]

/-- The hashtag substitution is the identity on texts without `#`. -/
theorem hashtagSubGo_no_hash :
    ∀ l : List Char, (∀ c ∈ l, c ≠ '#') → hashtagSubGo 0 l = l
  | [], _ => by simp [hashtagSubGo]
  | c :: rest, h => by
    have hc : c ≠ '#' := h c (List.mem_cons_self c rest)
    have ih := hashtagSubGo_no_hash rest
      (fun x hx => h x (List.mem_cons_of_mem c hx))
    simp [hashtagSubGo, hc, ih]

/-- On a text with no `#` and no `.`, `!`, `?`, `split_sentences` returns
the whole trimmed text as the only fragment, or nothing if it trims away. -/
theorem splitSentencesL_no_hash_term (l : List Char) (iso : Bool)
    (h : ∀ c ∈ l, c ≠ '#' ∧ isTermC c = false) :
    splitSentencesL l iso = if pyStrip l = [] then [] else [pyStrip l] := by
  cases l with
  | nil => simp [splitSentencesL, pyStrip]
  | cons a t =>
    have hsub : hashtagSubGo 0 (a :: t) = a :: t :=
      hashtagSubGo_no_hash (a :: t) (fun c hc => (h c hc).1)
    have hone := splitGo_no_match (a :: t) none [] h rfl
    have hbody : splitSentencesL (a :: t) iso =
        [pyStrip (a :: t)].filter (fun p => !p.isEmpty) := by
      cases iso <;>
        simp [splitSentencesL, hashtagSub, hsub, hone]
    rw [hbody]
    cases hs : pyStrip (a :: t) <;> simp [hs]

/-- A whitespace character is not a hash. -/
theorem pyIsSpace_ne_hash (c : Char) (h : pyIsSpace c = true) : c ≠ '#' := by
  intro hc
  subst hc
  exact absurd h (by decide)

/-- A whitespace character is not a sentence terminator. -/
theorem pyIsSpace_not_term (c : Char) (h : pyIsSpace c = true) :
    isTermC c = false := by
  cases ht : isTermC c
  · rfl
  · exfalso
    have h3 : c = '.' ∨ c = '!' ∨ c = '?' := by
      simpa [isTermC, or_assoc] using ht
    rcases h3 with h1 | h1 | h1 <;> subst h1 <;> exact absurd h (by decide)

/-- If `strip` empties a string, every character of it is whitespace. -/
theorem pyStrip_nil_space (l : List Char) (h : pyStrip l = []) :
    ∀ c ∈ l, pyIsSpace c = true := by
  have h1 : (l.dropWhile pyIsSpace).reverse.dropWhile pyIsSpace = [] := by
    have h2 := congrArg List.reverse h
    simpa [pyStrip] using h2
  have h3 : ∀ a ∈ l.dropWhile pyIsSpace, pyIsSpace a = true := by
    intro a ha
    exact List.dropWhile_eq_nil_iff.mp h1 a (List.mem_reverse.mpr ha)
  intro c hc
  have h4 : c ∈ l.takeWhile pyIsSpace ++ l.dropWhile pyIsSpace := by
    rw [List.takeWhile_append_dropWhile]
    exact hc
  rcases List.mem_append.mp h4 with h5 | h5
  · exact List.mem_takeWhile_imp h5
  · exact h3 c h5

/-- Every row produced by the sentence loop of `transform` carries the
record's id and its cleaned text as context. -/
theorem expandGo_mem (recId ctx : List Char) (D : KwDict) (mc mw : Nat)
    (mode : String) :
    ∀ (ss : List (List Char)) (idx : Nat) (rows : List Row),
      expandGo recId ctx D mc mw mode ss idx = .ok rows →
      ∀ r ∈ rows, r.id = recId ∧ r.context = ctx
  | [], idx, rows, h => by
    simp [expandGo] at h
    subst h
    intro r hr
    cases hr
  | s :: rest, idx, rows, h => by
    by_cases hf : filterSentence s mc mw
    · rw [expandGo, if_pos hf] at h
      cases hcl : classifySentence s D mode with
      | error e => rw [hcl] at h; cases h
      | ok cat =>
        rw [hcl] at h
        cases hrec : expandGo recId ctx D mc mw mode rest (idx + 1) with
        | error e => rw [hrec] at h; cases h
        | ok rows' =>
          rw [hrec] at h
          have h2 : (⟨recId, idx + 1, ctx, s, cat⟩ : Row) :: rows' = rows := by
            simpa using h
          subst h2
          intro r hr
          rcases List.mem_cons.mp hr with h3 | h3
          · subst h3; exact ⟨rfl, rfl⟩
          · exact expandGo_mem recId ctx D mc mw mode rest (idx + 1) rows'
              hrec r h3
    · rw [expandGo, if_neg hf] at h
      exact expandGo_mem recId ctx D mc mw mode rest idx rows h

/-- In mode `"all"` the sentence loop of `transform` never raises and
produces exactly one row per surviving sentence, numbered consecutively. -/
theorem expandGo_all_eq (recId ctx : List Char) (D : KwDict) (mc mw : Nat) :
    ∀ (ss : List (List Char)) (idx : Nat),
      expandGo recId ctx D mc mw "all" ss idx =
        .ok ((numberFrom idx (ss.filter (fun s => filterSentence s mc mw))).map
          (fun p => ⟨recId, p.1, ctx, p.2, classifyAllTotal p.2 D⟩))
  | [], idx => by simp [expandGo, numberFrom]
  | s :: rest, idx => by
    by_cases hf : filterSentence s mc mw
    · have ih := expandGo_all_eq recId ctx D mc mw rest (idx + 1)
      rw [expandGo, if_pos hf, classifySentence_all_eq, ih]
      simp [List.filter_cons, hf, numberFrom]
    · have ih := expandGo_all_eq recId ctx D mc mw rest idx
      rw [expandGo, if_neg hf, ih]
      simp [List.filter_cons, hf]

/-- In mode `"all"` one record's pass of `transform` yields exactly the rows
described by the specification-side `specExpand`. -/
theorem expandRecord_all_eq (r : InputRec) (D : KwDict) (iso : Bool)
    (mc mw : Nat) :
    expandRecord r D iso mc mw "all" = .ok (specExpand r D iso mc mw) := by
  simp only [expandRecord, specExpand]
  exact expandGo_all_eq r.id (cleanTextL r.text) D mc mw
    (splitSentencesL (cleanTextL r.text) iso) 0

/-! ## Claim theorems -/

/-- Claim C1 (code bug): on a sentence matching no keyword (shown by the
first conjunct), `classify_sentence` with `mode = "first"` raises
`IndexError` — `hits[0]` on the empty list — instead of returning
`"Uncategorized"`; with `mode = "all"` it does return `"Uncategorized"`. -/
theorem C1_first_mode_raises :
    containsSub (lowerL "hello".data) (lowerL "pizza".data) = false
    ∧ classifySentence "hello".data [("Food".data, ["pizza".data])] "first"
        = .error .indexError
    ∧ classifySentence "hello".data [("Food".data, ["pizza".data])] "all"
        = .ok uncategorizedS :=
  ⟨by decide, by decide, by decide⟩

/-- Claim C2 (code bug): with `min_chars = 3` (the default) and
`min_words = 1`, the fragment `!!!` — all of whose characters are
non-alphanumeric and not underscores — is emitted as a `Statement` by
`transform`, because `PUNCT_ONLY_RE` is compiled from `r"^[\\W_]+$"` and so
only matches runs of backslash, `W` and `_`, not `!!!`. -/
theorem C2_punct_only_statement_emitted :
    transformL [⟨"1".data, "!!!".data⟩] [("Food".data, ["pizza".data])]
        true 3 1 "all"
      = .ok [⟨"1".data, 1, "!!!".data, "!!!".data, uncategorizedS⟩]
    ∧ "!!!".data.all (fun c => !(c.isAlphanum || c == '_')) = true
    ∧ punctOnlyFullmatch "!!!".data = false :=
  ⟨by decide, by decide, by decide⟩

/-- Claim C3 (code bug): with hashtag isolation enabled, `#vacation`
embedded in prose is not returned as its own element: the isolation
substitution does nothing (its pattern `r"(#\\w+)"` requires a literal
backslash after `#`), and the fragment starting at the hashtag extends over
the following prose. -/
theorem C3_hashtag_not_isolated :
    splitSentencesL "Great trip! #vacation wow.".data true
      = ["Great trip!".data, "#vacation wow.".data]
    ∧ (splitSentencesL "Great trip! #vacation wow.".data true).contains
        "#vacation".data = false
    ∧ hashtagSub "Great trip! #vacation wow.".data
      = "Great trip! #vacation wow.".data :=
  ⟨by decide, by decide, by decide⟩

/-- Claim C4 (counterexample): two records sharing the ID `1` produce rows
whose `Context` values (`aaa` and `bbb`) differ from each other and from the
space-joined group statements (`aaa bbb`); and even for a group coming from
a single record with a unique ID (`7`, text `a#b c`, two statements `a` and
`#b c`), the shared `Context` `a#b c` is not the space-join `a #b c` of the
group's statements.  Both refute the whole-group-context claim. -/
theorem C4_counterexample :
    transformL [⟨"1".data, "aaa".data⟩, ⟨"1".data, "bbb".data⟩]
        [("Food".data, ["pizza".data])] true 1 1 "all"
      = .ok [⟨"1".data, 1, "aaa".data, "aaa".data, uncategorizedS⟩,
             ⟨"1".data, 1, "bbb".data, "bbb".data, uncategorizedS⟩]
    ∧ ("aaa".data == "bbb".data) = false
    ∧ ("aaa".data == "aaa bbb".data) = false
    ∧ transformL [⟨"7".data, "a#b c".data⟩]
        [("Food".data, ["pizza".data])] true 1 1 "all"
      = .ok [⟨"7".data, 1, "a#b c".data, "a".data, uncategorizedS⟩,
             ⟨"7".data, 2, "a#b c".data, "#b c".data, uncategorizedS⟩]
    ∧ ("a#b c".data == "a #b c".data) = false :=
  ⟨by decide, by decide, by decide, by decide, by decide⟩

/-- Claim C4 (amended): every output row's `Context` is the cleaned text of
the input record that produced it — not a per-`ID`-group join — so rows
sharing an `ID` share a `Context` only when they come from the same input
record. -/
theorem C4_context_is_record_text :
    ∀ (df : List InputRec) (D : KwDict) (iso : Bool) (mc mw : Nat)
      (mode : String) (rows : List Row),
      transformL df D iso mc mw mode = .ok rows →
      ∀ r ∈ rows, ∃ rec ∈ df, r.id = rec.id ∧ r.context = cleanTextL rec.text
  | [], D, iso, mc, mw, mode, rows, h => by
    simp [transformL] at h
    subst h
    intro r hr
    cases hr
  | rec :: rs, D, iso, mc, mw, mode, rows, h => by
    rw [transformL] at h
    cases hrec : expandRecord rec D iso mc mw mode with
    | error e => rw [hrec] at h; cases h
    | ok a =>
      rw [hrec] at h
      cases hrs : transformL rs D iso mc mw mode with
      | error e => rw [hrs] at h; cases h
      | ok b =>
        rw [hrs] at h
        have h2 : a ++ b = rows := by simpa using h
        subst h2
        intro r hr
        rcases List.mem_append.mp hr with h3 | h3
        · have hgo : expandGo rec.id (cleanTextL rec.text) D mc mw mode
              (splitSentencesL (cleanTextL rec.text) iso) 0 = .ok a := by
            simpa [expandRecord] using hrec
          have h4 := expandGo_mem rec.id (cleanTextL rec.text) D mc mw mode
            (splitSentencesL (cleanTextL rec.text) iso) 0 a hgo r h3
          exact ⟨rec, List.mem_cons_self rec rs, h4.1, h4.2⟩
        · obtain ⟨rec', hmem, hid, hctx⟩ :=
            C4_context_is_record_text rs D iso mc mw mode b hrs r h3
          exact ⟨rec', List.mem_cons_of_mem rec hmem, hid, hctx⟩

/-- Witness for C4: the amended theorem applied to a concrete run. -/
theorem C4_context_is_record_text_witness :
    (⟨"1".data, 1, "aaa".data, "aaa".data, uncategorizedS⟩ : Row).context
      = cleanTextL "aaa".data := by
  have h := C4_context_is_record_text [⟨"1".data, "aaa".data⟩]
    [("Food".data, ["pizza".data])] true 1 1 "all"
    [⟨"1".data, 1, "aaa".data, "aaa".data, uncategorizedS⟩] (by decide)
    ⟨"1".data, 1, "aaa".data, "aaa".data, uncategorizedS⟩
    (List.mem_singleton_self _)
  obtain ⟨rec, hmem, _, hctx⟩ := h
  have h5 : rec = ⟨"1".data, "aaa".data⟩ := List.mem_singleton.mp hmem
  subst h5
  exact hctx

/-- A dictionary value that is a dict but not a mapping to lists of
strings. -/
def malformedDict : List (List Char × PyVal) := [("Food".data, .pyint 3)]

/-- Claim C5 (counterexample): a JSON object whose value is the number `3`
passes the guard unchanged (it is not replaced by the default dictionary —
the lengths 1 and 10 differ) and then makes `classify_sentence` raise
`TypeError` when it iterates the number. -/
theorem C5_counterexample :
    userDictOf (some (.dict malformedDict)) = malformedDict
    ∧ (userDictOf (some (.dict malformedDict))).length = 1
    ∧ defaultDictPy.length = 10
    ∧ classifySentenceDyn "hello".data malformedDict "all"
        = .error .typeError :=
  ⟨rfl, rfl, rfl, rfl⟩

/-- Claim C5 (amended): only inputs that fail to parse or whose top-level
value is not a dict are replaced by the built-in default dictionary; a dict
with non-list-of-string values passes the guard as-is and classification on
it can raise. -/
theorem C5_guard_behaviour :
    (∀ p : Option PyVal, (∀ kvs, p ≠ some (PyVal.dict kvs)) →
      userDictOf p = defaultDictPy)
    ∧ userDictOf (some (.dict malformedDict)) = malformedDict
    ∧ classifySentenceDyn "hello".data malformedDict "all"
        = .error .typeError := by
  refine ⟨?_, rfl, rfl⟩
  intro p hp
  match p with
  | none => rfl
  | some .pynone => rfl
  | some (.pybool b) => rfl
  | some (.pyint n) => rfl
  | some (.str s) => rfl
  | some (.list xs) => rfl
  | some (.dict kvs) => exact absurd rfl (hp kvs)

/-- Witness for C5: a parse failure falls back to the default dictionary. -/
theorem C5_guard_behaviour_witness : userDictOf none = defaultDictPy :=
  C5_guard_behaviour.1 none (fun _ h => Option.noConfusion h)

/-- Claim C6 (counterexample): with the dictionary `{"": ["a"]}` and the
sentence `a`, the unique matching category is the empty string, so the
semicolon-join of the matching categories is empty — yet `mode = "all"`
returns `"Uncategorized"` (length 13), not that join. -/
theorem C6_counterexample :
    matchesCat "a".data ([], ["a".data]) = true
    ∧ matchingCats "a".data [([], ["a".data])] = [[]]
    ∧ semicolonJoin (matchingCats "a".data [([], ["a".data])]) = []
    ∧ classifySentence "a".data [([], ["a".data])] "all" = .ok uncategorizedS
    ∧ uncategorizedS.length = 13 :=
  ⟨by decide, by decide, by decide, by decide, by decide⟩

/-- Claim C6 (amended): `mode = "first"` returns the first matching category
in dictionary order (raising `IndexError` when there is none), and
`mode = "all"` returns the semicolon-joined matching categories in
dictionary order unless that join is the empty string, in which case it
returns `"Uncategorized"`. -/
theorem C6_classify_characterization (s : List Char) (D : KwDict) :
    classifySentence s D "first"
      = (match firstMatchingCat s D with
         | some c => Except.ok c
         | none => Except.error PyErr.indexError)
    ∧ classifySentence s D "all"
      = .ok (orUncategorized (semicolonJoin (matchingCats s D))) :=
  ⟨classifySentence_first_eq s D, by rw [classifySentence_all_eq]; rfl⟩

/-- Claim C7 (counterexample): the punctuation-only text `,,,` (no hashtag,
no sentence terminator, every character non-alphanumeric) is returned by
`split_sentences` as a one-element sequence, not as the empty sequence. -/
theorem C7_counterexample :
    splitSentencesL ",,,".data true = [",,,".data]
    ∧ (splitSentencesL ",,,".data true).length = 1
    ∧ ",,,".data.all (fun c => !(c.isAlphanum || c == '_')) = true :=
  ⟨by decide, by decide, by decide⟩

/-- Claim C7 (amended): on a text with no hashtag and no `.`, `!`, `?`,
`split_sentences` returns the empty sequence exactly when the text strips to
nothing (empty or whitespace-only), and otherwise the one-element sequence
of the trimmed text — including when the text is punctuation-only. -/
theorem C7_no_terminator_split (l : List Char) (iso : Bool)
    (h : ∀ c ∈ l, c ≠ '#' ∧ c ≠ '.' ∧ c ≠ '!' ∧ c ≠ '?') :
    splitSentencesL l iso = if pyStrip l = [] then [] else [pyStrip l] := by
  apply splitSentencesL_no_hash_term
  intro c hc
  obtain ⟨h1, h2, h3, h4⟩ := h c hc
  refine ⟨h1, ?_⟩
  simp [isTermC, h2, h3, h4]

/-- Witness for C7: the amended theorem applied to a concrete text. -/
theorem C7_no_terminator_split_witness :
    splitSentencesL "hello world".data true
      = if pyStrip "hello world".data = [] then []
        else [pyStrip "hello world".data] :=
  C7_no_terminator_split "hello world".data true (by decide)

/-- Claim C8 (counterexample): a record whose single surviving sentence
matches no category aborts the whole `mode = "first"` run with `IndexError`,
so `transform` emits zero rows for one surviving sentence. -/
theorem C8_counterexample :
    transformL [⟨"1".data, "zzz".data⟩] [("Food".data, ["pizza".data])]
        true 1 1 "first" = .error .indexError
    ∧ splitSentencesL (cleanTextL "zzz".data) true = ["zzz".data]
    ∧ filterSentence "zzz".data 1 1 = true :=
  ⟨by decide, by decide, by decide⟩

/-- Claim C8 (amended): in runs where classification succeeds for every
surviving sentence — always the case for `mode = "all"` — `transform`
processes records in original order and emits, per record, one row per
surviving sentence in sentence order, carrying the record's id, its cleaned
text as context, the sentence as statement, and a per-record sentence
counter numbering the emitted rows consecutively from 1; a record with no
surviving sentences contributes no rows. -/
theorem C8_rows_per_record (df : List InputRec) (D : KwDict) (iso : Bool)
    (mc mw : Nat) :
    transformL df D iso mc mw "all" = .ok (specRows df D iso mc mw) := by
  induction df with
  | nil => rfl
  | cons r rs ih =>
    rw [transformL, expandRecord_all_eq, ih]
    rfl

/-- Claim C9 (counterexample): a truthy non-string argument (the integer
`5`) makes `split_sentences` raise `TypeError` instead of returning a
sequence. -/
theorem C9_counterexample :
    splitSentencesPy (.pyint 5) true = .error .typeError
    ∧ truthy (.pyint 5) = true :=
  ⟨rfl, by decide⟩

/-- Claim C9 (amended): every falsy argument yields the empty sequence, and
every string argument that strips to nothing also yields the empty
sequence; on strings the single regex splitter never raises (there is no
separate primary detector or exception handler in the code). -/
theorem C9_falsy_and_blank_inputs (s : List Char) (v : PyVal) (iso : Bool)
    (hv : truthy v = false) (hs : pyStrip s = []) :
    splitSentencesPy v iso = .ok [] ∧ splitSentencesPy (.str s) iso = .ok [] := by
  constructor
  · simp [splitSentencesPy, hv]
  · have hsp := pyStrip_nil_space s hs
    have hterm : ∀ c ∈ s, c ≠ '#' ∧ isTermC c = false := fun c hc =>
      ⟨pyIsSpace_ne_hash c (hsp c hc), pyIsSpace_not_term c (hsp c hc)⟩
    have h0 : splitSentencesL s iso = [] := by
      rw [splitSentencesL_no_hash_term s iso hterm, if_pos hs]
    cases hse : s.isEmpty
    · simp [splitSentencesPy, truthy, hse, h0]
    · simp [splitSentencesPy, truthy, hse]

/-- Witness for C9: the amended theorem applied to the integer `0` and a
whitespace-only string. -/
theorem C9_falsy_and_blank_inputs_witness :
    splitSentencesPy (.pyint 0) true = .ok []
    ∧ splitSentencesPy (.str "  ".data) true = .ok [] :=
  C9_falsy_and_blank_inputs "  ".data (.pyint 0) true (by decide) (by decide)

/-- Claim C10 (confirmed): with the isolation flag `False`, the splitter
still starts a new fragment exactly at an embedded hashtag — the split
pattern's `#` lookahead is unconditional, so the output is the same as with
the flag `True`. -/
theorem C10_hash_split_ignores_toggle :
    splitSentencesL "Great trip #vacation wow".data false
      = ["Great trip".data, "#vacation wow".data]
    ∧ splitSentencesL "Great trip #vacation wow".data true
      = ["Great trip".data, "#vacation wow".data] :=
  ⟨by decide, by decide⟩

end TextApp
